import Mathlib

/-!
Verification development for the retainr memory storage and retrieval engine.

The Python sources under `mcp_server/` are shallowly embedded here:

* `storage.py` (`MemoryStorage`) — file-backed record store: filename and
  identifier derivation, save/load/update of memory entries.
* `embeddings.py` (`EmbeddingService`) — vector index adapter: query
  construction and distance-to-score conversion.
* `api.py` — the HTTP-facing memory service: create/search orchestration.

Modelling conventions:

* Python strings are `String`; character-level operations (strip, split,
  slicing) are defined over `List Char`, matching Python's per-character
  semantics.
* `datetime` values are a concrete structure; `isoformat` /
  `fromisoformat` are implemented and their round-trip proved.
* The filesystem is a total map `String → Option FileData`; a file is
  either a structured front-matter document (`Post`) or `corrupt`
  (any file whose open/parse raises in Python).  The external
  `python-frontmatter` library is modelled at this structured level; its
  `parse` function returns `content.strip()`, which the model reflects.
* `hashlib.sha256` is implemented in full (FIPS 180-4) over `Nat` with
  explicit reduction modulo 2^32.
* Exceptions are `Except` / `Option`; a Python `try/except` that returns a
  default becomes a `match` on the fallible result.
-/

namespace Retainr

/-! ## Python string primitives -/

/-- Python's `str.strip` whitespace set. -/
def pyWhitespace (c : Char) : Bool :=
  c == ' ' || c == '\t' || c == '\n' || c == '\r' || c == '\x0b' || c == '\x0c'

/-- Characters of `s.strip()`: drop leading whitespace, then trailing. -/
def stripChars (l : List Char) : List Char :=
  ((l.dropWhile pyWhitespace).reverse.dropWhile pyWhitespace).reverse

/-- Python `s.strip()`. -/
def pyStrip (s : String) : String :=
  ⟨stripChars s.data⟩

/-- Python `s.split("\n")`: split on every newline, never returns an empty
list (the split of `""` is `[""]`). -/
def splitNl : List Char → List (List Char)
  | [] => [[]]
  | c :: rest =>
    if c == '\n' then
      [] :: splitNl rest
    else
      match splitNl rest with
      | [] => [[c]]
      | h :: t => (c :: h) :: t

/-- Python `s[:n]` on a string: the first `n` characters. -/
def pyTake (s : String) (n : Nat) : String :=
  ⟨s.data.take n⟩

/-- Python `s.startswith("#")`. -/
def startsWithHash (s : String) : Bool :=
  match s.data with
  | [] => false
  | c :: _ => c == '#'

/-- Python `s.lstrip("#")`. -/
def lstripHash (s : String) : String :=
  ⟨s.data.dropWhile (· == '#')⟩

/-! ## Basic facts about the string primitives -/

theorem dropWhile_dropWhile (p : Char → Bool) (l : List Char) :
    (l.dropWhile p).dropWhile p = l.dropWhile p := by
  induction l with
  | nil => rfl
  | cons h t ih =>
    by_cases hp : p h = true
    · simp [List.dropWhile, hp, ih]
    · simp [List.dropWhile, hp]

/-- The head of a `dropWhile p` result never satisfies `p`. -/
theorem head_dropWhile (p : Char → Bool) (l : List Char) (c : Char)
    (h : (l.dropWhile p).head? = some c) : p c = false := by
  induction l with
  | nil => simp at h
  | cons a t ih =>
    by_cases hp : p a = true
    · simp [List.dropWhile, hp] at h
      exact ih h
    · simp [List.dropWhile, hp] at h
      subst h
      simpa using hp

/-- A list whose head fails `p` is unchanged by `dropWhile p`. -/
theorem dropWhile_of_head (p : Char → Bool) (l : List Char)
    (h : ∀ c, l.head? = some c → p c = false) : l.dropWhile p = l := by
  cases l with
  | nil => rfl
  | cons a t =>
    have := h a rfl
    simp [List.dropWhile, this]

theorem stripChars_idem (l : List Char) :
    stripChars (stripChars l) = stripChars l := by
  unfold stripChars
  set A := l.dropWhile pyWhitespace with hA
  set B := A.reverse.dropWhile pyWhitespace with hB
  have hAhead : ∀ c, A.head? = some c → pyWhitespace c = false := by
    intro c hc
    exact head_dropWhile pyWhitespace l c (hA ▸ hc)
  -- `B.reverse` is a prefix of `A`, so its head also fails `pyWhitespace`.
  have hBsuffix : B <:+ A.reverse := by
    rw [hB]; exact List.dropWhile_suffix pyWhitespace
  have hBrev : B.reverse <+: A := by
    have := List.reverse_prefix.mpr hBsuffix
    simpa using this
  have hBrevHead : ∀ c, B.reverse.head? = some c → pyWhitespace c = false := by
    intro c hc
    obtain ⟨t, ht⟩ := hBrev
    apply hAhead c
    rw [← ht]
    cases hrev : B.reverse with
    | nil => rw [hrev] at hc; simp at hc
    | cons x xs =>
      rw [hrev] at hc
      simp at hc
      subst hc
      simp
  rw [dropWhile_of_head pyWhitespace B.reverse hBrevHead]
  rw [List.reverse_reverse, dropWhile_dropWhile]

theorem pyStrip_idem (s : String) : pyStrip (pyStrip s) = pyStrip s := by
  unfold pyStrip
  exact congrArg String.mk (stripChars_idem s.data)

theorem stripChars_data_mk (l : List Char) :
    (String.mk l).data = l := rfl

theorem splitNl_ne_nil (l : List Char) : splitNl l ≠ [] := by
  cases l with
  | nil => simp [splitNl]
  | cons c rest =>
    by_cases hc : (c == '\n') = true
    · simp [splitNl, hc]
    · simp only [splitNl, if_neg hc]
      cases splitNl rest <;> simp

/-- Evaluating the first element of a newline split: it is the longest
newline-free leading segment. -/
theorem splitNl_head (l : List Char) :
    (splitNl l).headD [] = l.takeWhile (· != '\n') := by
  induction l with
  | nil => rfl
  | cons c rest ih =>
    by_cases hc : (c == '\n') = true
    · have : c = '\n' := by simpa using hc
      subst this
      simp [splitNl, List.takeWhile]
    · have hne : (c != '\n') = true := by simpa [bne] using hc
      cases hsp : splitNl rest with
      | nil => exact absurd hsp (splitNl_ne_nil rest)
      | cons h t =>
        simp only [splitNl, if_neg hc, hsp]
        rw [hsp] at ih
        simp at ih
        simp [List.takeWhile, hne, ← ih]

/-! ## Python `datetime` values

The program serializes timestamps with `datetime.isoformat()` and parses
them with `datetime.fromisoformat()`.  Both are implemented here over a
concrete calendar structure.  `fromisoformat` accepts exactly the shapes
this program can produce or encounter: a date, or a date with a full
`HH:MM:SS` time and an optional 6-digit fraction. -/

structure DateTime where
  year : Nat
  month : Nat
  day : Nat
  hour : Nat
  minute : Nat
  second : Nat
  microsecond : Nat
deriving DecidableEq, Repr

/-- The ASCII digit character for `n < 10`. -/
def digitChar10 (n : Nat) : Char := Char.ofNat (48 + n)

/-- Zero-padded fixed-width decimal rendering, most significant digit
first, as `"%0kd"` does for numbers below `10 ^ k`. -/
def padDigits : Nat → Nat → List Char
  | 0, _ => []
  | k + 1, n => digitChar10 (n / 10 ^ k) :: padDigits k (n % 10 ^ k)

/-- Characters of `datetime.isoformat()`: the microsecond part is printed
only when nonzero, then always with six digits. -/
def DateTime.isoChars (t : DateTime) : List Char :=
  padDigits 4 t.year ++ '-' :: padDigits 2 t.month ++ '-' :: padDigits 2 t.day ++
  'T' :: padDigits 2 t.hour ++ ':' :: padDigits 2 t.minute ++ ':' :: padDigits 2 t.second ++
  (if t.microsecond == 0 then [] else '.' :: padDigits 6 t.microsecond)

/-- Python `datetime.isoformat()`. -/
def DateTime.isoformat (t : DateTime) : String := ⟨t.isoChars⟩

/-- Parse exactly `k` decimal digits into an accumulator. -/
def parseDigitsAux : Nat → Nat → List Char → Option (Nat × List Char)
  | 0, acc, cs => some (acc, cs)
  | _ + 1, _, [] => none
  | k + 1, acc, c :: cs =>
    if c.isDigit then parseDigitsAux k (acc * 10 + (c.toNat - 48)) cs else none

/-- Consume one expected character. -/
def expectChar (c : Char) : List Char → Option (List Char)
  | [] => none
  | d :: cs => if d == c then some cs else none

/-- The field ranges `datetime.fromisoformat` enforces (it raises
`ValueError` outside them; day-of-month versus month length is not
re-checked here). -/
def isoFieldsOk (y mo d h mi s us : Nat) : Prop :=
  1 ≤ y ∧ y ≤ 9999 ∧ 1 ≤ mo ∧ mo ≤ 12 ∧ 1 ≤ d ∧ d ≤ 31 ∧
  h ≤ 23 ∧ mi ≤ 59 ∧ s ≤ 59 ∧ us ≤ 999999

instance (y mo d h mi s us : Nat) : Decidable (isoFieldsOk y mo d h mi s us) := by
  unfold isoFieldsOk; infer_instance

/-- Python `datetime.fromisoformat` on the character list, returning
`none` where Python raises `ValueError`. -/
def parseIso (cs : List Char) : Option DateTime :=
  match parseDigitsAux 4 0 cs with
  | none => none
  | some (y, cs) =>
  match expectChar '-' cs with
  | none => none
  | some cs =>
  match parseDigitsAux 2 0 cs with
  | none => none
  | some (mo, cs) =>
  match expectChar '-' cs with
  | none => none
  | some cs =>
  match parseDigitsAux 2 0 cs with
  | none => none
  | some (d, cs) =>
  match cs with
  | [] => if isoFieldsOk y mo d 0 0 0 0 then some ⟨y, mo, d, 0, 0, 0, 0⟩ else none
  | sep :: cs =>
  if sep == 'T' || sep == ' ' then
    match parseDigitsAux 2 0 cs with
    | none => none
    | some (h, cs) =>
    match expectChar ':' cs with
    | none => none
    | some cs =>
    match parseDigitsAux 2 0 cs with
    | none => none
    | some (mi, cs) =>
    match expectChar ':' cs with
    | none => none
    | some cs =>
    match parseDigitsAux 2 0 cs with
    | none => none
    | some (s, cs) =>
    match (match cs with
           | [] => some (0, ([] : List Char))
           | '.' :: cs2 => parseDigitsAux 6 0 cs2
           | _ => none) with
    | none => none
    | some (us, cs) =>
    match cs with
    | [] => if isoFieldsOk y mo d h mi s us then some ⟨y, mo, d, h, mi, s, us⟩ else none
    | _ => none
  else none

/-- Python `datetime.fromisoformat`. -/
def DateTime.fromisoformat (s : String) : Option DateTime := parseIso s.data

/-- The invariants every real Python `datetime` object satisfies by
construction. -/
def DateTime.Valid (t : DateTime) : Prop :=
  isoFieldsOk t.year t.month t.day t.hour t.minute t.second t.microsecond

instance (t : DateTime) : Decidable t.Valid := by
  unfold DateTime.Valid; infer_instance

/-- Python `timestamp.strftime("%Y-%m-%dT%H-%M-%S")`, used for
filenames. -/
def DateTime.strftimeName (t : DateTime) : String :=
  ⟨padDigits 4 t.year ++ '-' :: padDigits 2 t.month ++ '-' :: padDigits 2 t.day ++
   'T' :: padDigits 2 t.hour ++ '-' :: padDigits 2 t.minute ++ '-' :: padDigits 2 t.second⟩

/-! ## Round-trip of the timestamp serialization -/

theorem digitChar10_isDigit (m : Nat) (hm : m < 10) :
    (digitChar10 m).isDigit = true := by
  interval_cases m <;> decide

theorem digitChar10_val (m : Nat) (hm : m < 10) :
    (digitChar10 m).toNat - 48 = m := by
  interval_cases m <;> decide

theorem parseDigitsAux_pad (k : Nat) :
    ∀ (n acc : Nat) (rest : List Char), n < 10 ^ k →
      parseDigitsAux k acc (padDigits k n ++ rest) = some (acc * 10 ^ k + n, rest) := by
  induction k with
  | zero =>
    intro n acc rest hn
    have hz : n = 0 := by simpa using hn
    subst hz
    simp [padDigits, parseDigitsAux]
  | succ k ih =>
    intro n acc rest hn
    have hdiv : n / 10 ^ k < 10 := by
      apply Nat.div_lt_of_lt_mul
      calc n < 10 ^ (k + 1) := hn
        _ = 10 ^ k * 10 := by ring
    have hmod : n % 10 ^ k < 10 ^ k := Nat.mod_lt _ (by positivity)
    simp only [padDigits, List.cons_append, parseDigitsAux,
      digitChar10_isDigit _ hdiv, if_true, List.append_eq]
    rw [digitChar10_val _ hdiv, ih _ _ rest hmod]
    have key : (acc * 10 + n / 10 ^ k) * 10 ^ k + n % 10 ^ k = acc * 10 ^ (k + 1) + n := by
      have h2 := Nat.div_add_mod n (10 ^ k)
      calc (acc * 10 + n / 10 ^ k) * 10 ^ k + n % 10 ^ k
          = acc * (10 ^ k * 10) + (10 ^ k * (n / 10 ^ k) + n % 10 ^ k) := by ring
        _ = acc * (10 ^ k * 10) + n := by rw [h2]
        _ = acc * 10 ^ (k + 1) + n := by ring
    rw [key]

theorem expectChar_cons (c : Char) (cs : List Char) :
    expectChar c (c :: cs) = some cs := by
  simp [expectChar]

/-- A serialized timestamp parses back to exactly the timestamp that was
serialized. -/
theorem fromisoformat_isoformat (t : DateTime) (ht : t.Valid) :
    DateTime.fromisoformat t.isoformat = some t := by
  obtain ⟨h1, h2, h3, h4, h5, h6, h7, h8, h9, h10⟩ := ht
  show parseIso t.isoChars = some t
  unfold DateTime.isoChars parseIso
  simp only [List.append_assoc, List.cons_append]
  rw [parseDigitsAux_pad 4 t.year 0 _ (by omega)]
  simp only [Nat.zero_mul, Nat.zero_add]
  rw [expectChar_cons]
  simp only []
  rw [parseDigitsAux_pad 2 t.month 0 _ (by omega)]
  simp only [Nat.zero_mul, Nat.zero_add]
  rw [expectChar_cons]
  simp only []
  rw [parseDigitsAux_pad 2 t.day 0 _ (by omega)]
  simp only [Nat.zero_mul, Nat.zero_add]
  rw [if_pos (by decide : (('T' == 'T') || ('T' == ' ')) = true)]
  rw [parseDigitsAux_pad 2 t.hour 0 _ (by omega)]
  simp only [Nat.zero_mul, Nat.zero_add]
  rw [expectChar_cons]
  simp only []
  rw [parseDigitsAux_pad 2 t.minute 0 _ (by omega)]
  simp only [Nat.zero_mul, Nat.zero_add]
  rw [expectChar_cons]
  simp only []
  by_cases hus : t.microsecond = 0
  · rw [show (if (t.microsecond == 0) = true then ([] : List Char)
        else '.' :: padDigits 6 t.microsecond) = [] from by simp [hus]]
    rw [parseDigitsAux_pad 2 t.second 0 _ (by omega)]
    simp only [Nat.zero_mul, Nat.zero_add]
    rw [if_pos (show isoFieldsOk t.year t.month t.day t.hour t.minute t.second 0 from
      ⟨h1, h2, h3, h4, h5, h6, h7, h8, h9, by omega⟩)]
    rw [← hus]
  · rw [show (if (t.microsecond == 0) = true then ([] : List Char)
        else '.' :: padDigits 6 t.microsecond) = '.' :: padDigits 6 t.microsecond from
      by simp [hus]]
    rw [parseDigitsAux_pad 2 t.second 0 _ (by omega)]
    simp only [Nat.zero_mul, Nat.zero_add]
    rw [show padDigits 6 t.microsecond = padDigits 6 t.microsecond ++ [] from
      (List.append_nil _).symm]
    rw [parseDigitsAux_pad 6 t.microsecond 0 _ (by omega)]
    simp only [Nat.zero_mul, Nat.zero_add]
    rw [if_pos (show isoFieldsOk t.year t.month t.day t.hour t.minute t.second
      t.microsecond from ⟨h1, h2, h3, h4, h5, h6, h7, h8, h9, h10⟩)]

/-! ## Slugify

Modelled from the spec: the external `slugify` library is "standard
slugify (lowercase/ASCII-fold/hyphenate)" — lowercase the text, treat
every maximal run of characters outside `[a-z0-9]` as one separator,
join the remaining words with single hyphens, and strip separators at
both ends.  The ASCII-fold transliteration step is the identity on the
ASCII inputs exercised here; non-ASCII transliteration tables are not
modelled. -/

/-- Characters a slug keeps (after lowercasing). -/
def slugKeep (c : Char) : Bool := c.isAlphanum

/-- Split a character list at every separator character (those failing
`slugKeep`), keeping empty segments. -/
def slugSegments : List Char → List (List Char)
  | [] => [[]]
  | c :: rest =>
    if slugKeep c then
      match slugSegments rest with
      | [] => [[c]]
      | h :: t => (c :: h) :: t
    else
      [] :: slugSegments rest

/-- Standard slugify over ASCII text. -/
def slugify (s : String) : String :=
  ⟨List.intercalate ['-'] ((slugSegments (s.data.map Char.toLower)).filter (· ≠ []))⟩

/-! ## The MemoryEntry data model (`models.py`) -/

/-- Schema for a memory entry (`models.MemoryEntry`). -/
structure MemoryEntry where
  project : String
  category : String
  tags : List String
  references : List String
  content : String
  outdated : Bool
  timestamp : Option DateTime
deriving DecidableEq, Repr

/-- The pydantic validator `validate_non_empty_strings`: `project`,
`category` and `content` must be non-empty after stripping. -/
def entry_valid (e : MemoryEntry) : Bool :=
  !(stripChars e.project.data).isEmpty &&
  !(stripChars e.category.data).isEmpty &&
  !(stripChars e.content.data).isEmpty

/-! ## Filename derivation (`MemoryStorage._generate_filename`) -/

/-- The lines of `entry.content.strip().split("\n")`. -/
def contentLines (content : String) : List String :=
  (splitNl (stripChars content.data)).map (fun l => ⟨l⟩)

/-- The first content line; the `"memory"` default fires only when the
line list is empty, which a Python `split` never produces. -/
def firstLine (content : String) : String :=
  (contentLines content).headD "memory"

/-- Strip a leading markdown header marker:
`first_line.lstrip("#").strip() if first_line.startswith("#") else first_line`. -/
def titleOf (fl : String) : String :=
  if startsWithHash fl then pyStrip (lstripHash fl) else fl

/-- The slug component of the filename: `slugify(title[:50])`. -/
def slugOf (content : String) : String :=
  slugify (pyTake (titleOf (firstLine content)) 50)

/-- Python `MemoryStorage._generate_filename`, with the clock value
passed explicitly for `datetime.utcnow()`. -/
def generate_filename (now : DateTime) (e : MemoryEntry) : String :=
  (e.timestamp.getD now).strftimeName ++ "-" ++ e.category ++ "-" ++ slugOf e.content ++ ".md"

/-! ## SHA-256 (`hashlib.sha256`), FIPS 180-4, over `Nat` with explicit
reduction modulo `2 ^ 32` -/

/-- Reduce to a 32-bit word. -/
def w32 (n : Nat) : Nat := n % 4294967296

/-- Right rotation of a 32-bit word. -/
def rotr32 (r x : Nat) : Nat := w32 ((x >>> r) ||| (x <<< (32 - r)))

def xor3 (a b c : Nat) : Nat := (a ^^^ b) ^^^ c

def bsig0 (x : Nat) : Nat := xor3 (rotr32 2 x) (rotr32 13 x) (rotr32 22 x)

def bsig1 (x : Nat) : Nat := xor3 (rotr32 6 x) (rotr32 11 x) (rotr32 25 x)

def ssig0 (x : Nat) : Nat := xor3 (rotr32 7 x) (rotr32 18 x) (x >>> 3)

def ssig1 (x : Nat) : Nat := xor3 (rotr32 17 x) (rotr32 19 x) (x >>> 10)

def chf (x y z : Nat) : Nat := (x &&& y) ^^^ ((x ^^^ 4294967295) &&& z)

def majf (x y z : Nat) : Nat := ((x &&& y) ^^^ (x &&& z)) ^^^ (y &&& z)

def sha256K : List Nat :=
  [1116352408, 1899447441, 3049323471, 3921009573,
   961987163, 1508970993, 2453635748, 2870763221,
   3624381080, 310598401, 607225278, 1426881987,
   1925078388, 2162078206, 2614888103, 3248222580,
   3835390401, 4022224774, 264347078, 604807628,
   770255983, 1249150122, 1555081692, 1996064986,
   2554220882, 2821834349, 2952996808, 3210313671,
   3336571891, 3584528711, 113926993, 338241895,
   666307205, 773529912, 1294757372, 1396182291,
   1695183700, 1986661051, 2177026350, 2456956037,
   2730485921, 2820302411, 3259730800, 3345764771,
   3516065817, 3600352804, 4094571909, 275423344,
   430227734, 506948616, 659060556, 883997877,
   958139571, 1322822218, 1537002063, 1747873779,
   1955562222, 2024104815, 2227730452, 2361852424,
   2428436474, 2756734187, 3204031479, 3329325298]

/-- Fixed-width big-endian byte rendering of a number. -/
def toBytesBE : Nat → Nat → List Nat
  | 0, _ => []
  | k + 1, n => ((n / 256 ^ k) % 256) :: toBytesBE k n

/-- Merkle–Damgard padding: a `0x80` byte, zeros to 56 mod 64, then the
bit length as 8 big-endian bytes. -/
def shaPad (msg : List Nat) : List Nat :=
  let zeros := (119 - msg.length % 64) % 64
  msg ++ 0x80 :: (List.replicate zeros 0 ++ toBytesBE 8 (8 * msg.length))

/-- Split into 64-byte chunks (fuel-indexed; the fuel is the length, so
it never runs out). -/
def chunksOf64 : Nat → List Nat → List (List Nat)
  | 0, _ => []
  | _ + 1, [] => []
  | fuel + 1, l => l.take 64 :: chunksOf64 fuel (l.drop 64)

/-- The first 16 words of the message schedule, big-endian from the
chunk bytes. -/
def scheduleInit (chunk : List Nat) : List Nat :=
  (List.range 16).map (fun i =>
    (chunk.getD (4 * i) 0) * 16777216 + (chunk.getD (4 * i + 1) 0) * 65536 +
    (chunk.getD (4 * i + 2) 0) * 256 + chunk.getD (4 * i + 3) 0)

/-- Extend the schedule by one word. -/
def scheduleStep (ws : List Nat) : List Nat :=
  ws ++ [w32 (ssig1 (ws.getD (ws.length - 2) 0) + ws.getD (ws.length - 7) 0 +
              ssig0 (ws.getD (ws.length - 15) 0) + ws.getD (ws.length - 16) 0)]

/-- The full 64-word message schedule of one chunk. -/
def schedule (chunk : List Nat) : List Nat :=
  (List.range 48).foldl (fun ws _ => scheduleStep ws) (scheduleInit chunk)

/-- The eight 32-bit working registers. -/
structure Sha256State where
  ra : Nat
  rb : Nat
  rc : Nat
  rd : Nat
  re : Nat
  rf : Nat
  rg : Nat
  rh : Nat
deriving Repr

/-- One compression round. -/
def roundStep (st : Sha256State) (kw : Nat × Nat) : Sha256State :=
  let t1 := w32 (st.rh + bsig1 st.re + chf st.re st.rf st.rg + kw.1 + kw.2)
  let t2 := w32 (bsig0 st.ra + majf st.ra st.rb st.rc)
  ⟨w32 (t1 + t2), st.ra, st.rb, st.rc, w32 (st.rd + t1), st.re, st.rf, st.rg⟩

/-- Compress one 64-byte chunk into the running state. -/
def compressChunk (st : Sha256State) (chunk : List Nat) : Sha256State :=
  let r := (sha256K.zip (schedule chunk)).foldl roundStep st
  ⟨w32 (st.ra + r.ra), w32 (st.rb + r.rb), w32 (st.rc + r.rc), w32 (st.rd + r.rd),
   w32 (st.re + r.re), w32 (st.rf + r.rf), w32 (st.rg + r.rg), w32 (st.rh + r.rh)⟩

def sha256InitState : Sha256State :=
  ⟨1779033703, 3144134277, 1013904242, 2773480762,
   1359893119, 2600822924, 528734635, 1541459225⟩

/-- The eight 32-bit words of the SHA-256 digest of a byte string. -/
def sha256Words (msg : List Nat) : List Nat :=
  let padded := shaPad msg
  let final := (chunksOf64 padded.length padded).foldl compressChunk sha256InitState
  [final.ra, final.rb, final.rc, final.rd, final.re, final.rf, final.rg, final.rh]

/-- Lowercase hexadecimal digit. -/
def hexDigitChar (n : Nat) : Char :=
  if n < 10 then Char.ofNat (48 + n) else Char.ofNat (87 + n)

/-- Eight hex characters of one 32-bit word, most significant first. -/
def wordHexChars (w : Nat) : List Char :=
  (List.range 8).map (fun i => hexDigitChar ((w / 16 ^ (7 - i)) % 16))

/-- UTF-8 encoding of one character (Python `str.encode()`). -/
def utf8Bytes (c : Char) : List Nat :=
  let n := c.toNat
  if n < 128 then [n]
  else if n < 2048 then [192 + n / 64, 128 + n % 64]
  else if n < 65536 then [224 + n / 4096, 128 + (n / 64) % 64, 128 + n % 64]
  else [240 + n / 262144, 128 + (n / 4096) % 64, 128 + (n / 64) % 64, 128 + n % 64]

/-- Python `s.encode()` (UTF-8). -/
def encodeUtf8 (s : String) : List Nat :=
  (s.data.map utf8Bytes).flatten

/-- Python `hashlib.sha256(s.encode()).hexdigest()`. -/
def sha256_hexdigest (s : String) : String :=
  ⟨((sha256Words (encodeUtf8 s)).map wordHexChars).flatten⟩

/-- Python `MemoryStorage._generate_memory_id`:
`hashlib.sha256(str(file_path).encode()).hexdigest()[:12]`. -/
def generate_memory_id (file_path : String) : String :=
  pyTake (sha256_hexdigest file_path) 12

/-! ## The file store (`MemoryStorage`)

A file is modelled at the structure level of `python-frontmatter`: a
metadata mapping with exactly the keys this program writes, plus the
body text.  YAML scalar serialization is faithful for the values used
(strings, string lists, booleans), so it is not re-modelled
character-by-character; what `frontmatter.parse` adds on top of YAML —
returning `content.strip()` — is modelled explicitly in `load_memory`.
Any file whose open, YAML parse, or metadata shape makes the Python
`try` block raise is `corrupt`. -/

/-- The structured content of one markdown memory file, as written by
`frontmatter.dumps(Post(...))` in `save_memory`. -/
structure Post where
  project : String
  category : String
  tags : List String
  references : List String
  timestampMeta : Option String
  outdated : Bool
  content : String
deriving DecidableEq, Repr

/-- A file on disk: either a well-formed front-matter document or one
whose read/parse raises. -/
inductive FileData where
  | good : Post → FileData
  | corrupt : FileData
deriving DecidableEq, Repr

/-- The directory tree: path string to file, `none` when absent. -/
def FS : Type := String → Option FileData

/-- The caller's entry object after `save_memory`'s first statement:
`if not entry.timestamp: entry.timestamp = datetime.utcnow()` mutates it
in place. -/
def savedEntry (now : DateTime) (entry : MemoryEntry) : MemoryEntry :=
  if entry.timestamp.isNone then { entry with timestamp := some now } else entry

/-- The file path `save_memory` writes to:
`memory_dir / entry.project / filename`. -/
def savedPath (memory_dir : String) (now : DateTime) (entry : MemoryEntry) : String :=
  memory_dir ++ "/" ++ (savedEntry now entry).project ++ "/" ++
    generate_filename now (savedEntry now entry)

/-- The front-matter document `save_memory` serializes. -/
def savedPost (now : DateTime) (entry : MemoryEntry) : Post :=
  { project := (savedEntry now entry).project
    category := (savedEntry now entry).category
    tags := (savedEntry now entry).tags
    references := (savedEntry now entry).references
    timestampMeta := some (((savedEntry now entry).timestamp.getD now).isoformat)
    outdated := (savedEntry now entry).outdated
    content := (savedEntry now entry).content }

/-- The values `save_memory` leaves behind: the (mutated) caller entry,
the returned `(memory_id, file_path)` pair, and the directory tree after
the write. -/
structure SaveResult where
  entry : MemoryEntry
  memory_id : String
  file_path : String
  fs : FS

/-- Python `MemoryStorage.save_memory`. -/
def save_memory (memory_dir : String) (now : DateTime) (fs : FS)
    (entry : MemoryEntry) : SaveResult :=
  { entry := savedEntry now entry
    memory_id := generate_memory_id (savedPath memory_dir now entry)
    file_path := savedPath memory_dir now entry
    fs := fun p => if p = savedPath memory_dir now entry
                   then some (FileData.good (savedPost now entry)) else fs p }

/-- The `MemoryEntry(...)` constructor call inside `load_memory`: every
metadata field as stored, the body stripped as `frontmatter.parse`
returns it, and the parsed timestamp. -/
def loadedOf (post : Post) (ts : Option DateTime) : MemoryEntry :=
  { project := post.project
    category := post.category
    tags := post.tags
    references := post.references
    content := pyStrip post.content
    outdated := post.outdated
    timestamp := ts }

/-- Python `MemoryStorage.load_memory`: `none` for a missing file, for a
corrupt file, for an unparsable timestamp, and for metadata rejected by
the `MemoryEntry` validators — every such exception is caught.  The
returned content is the file body stripped, as `frontmatter.parse`
returns it. -/
def load_memory (fs : FS) (file_path : String) : Option MemoryEntry :=
  match fs file_path with
  | none => none
  | some FileData.corrupt => none
  | some (FileData.good post) =>
    match (match post.timestampMeta with
           | none => some (none : Option DateTime)
           | some s =>
             match DateTime.fromisoformat s with
             | none => none
             | some t => some (some t)) with
    | none => none
    | some ts =>
      if entry_valid (loadedOf post ts) then some (loadedOf post ts) else none

/-- Python `MemoryStorage.update_memory`: load, flip the `outdated`
flag, save again; `false` (and no write) when the load fails. -/
def update_memory (memory_dir : String) (now : DateTime) (fs : FS)
    (file_path : String) (outdated : Bool) : Bool × FS :=
  match load_memory fs file_path with
  | none => (false, fs)
  | some entry =>
    (true, (save_memory memory_dir now fs { entry with outdated := outdated }).fs)

/-! ## The vector index adapter (`EmbeddingService`) -/

/-- The arguments `search_memories` passes to `collection.query`: the
requested result count and the metadata filter. -/
structure ChromaQueryParams where
  nResults : Int
  whereProject : Option String
  whereOutdated : Bool
deriving DecidableEq, Repr

/-- Python `EmbeddingService.search_memories` query construction: the
filter always demands `outdated == False`, adds `project` when given,
and `n_results` is the caller's `top_k` unchanged. -/
def build_search_query (project : Option String) (top_k : Int) : ChromaQueryParams :=
  { nResults := top_k, whereProject := project, whereOutdated := false }

/-- Python `score = max(0, 1 - distance)` in `search_memories`. -/
def distance_to_score (d : ℚ) : ℚ := max 0 (1 - d)

/-! ## The memory service (`api.py`) -/

/-- Python `top_k=min(top, 10)` in the `/memory/search` endpoint. -/
def api_top_k (top : Int) : Int := min top 10

/-- The HTTP response body of `POST /memory/`. -/
structure MemoryCreateResponse where
  id : String
  file_path : String
  message : String
deriving DecidableEq, Repr

/-- Python `create_memory` in `api.py`: the `try` block around
`save_memory` and `index_memory`.  The save outcome (which can raise on
store I/O errors) and the indexing outcome (a boolean, since
`index_memory` catches its own exceptions) are passed in; an error
becomes the HTTP 500 path. -/
def create_memory (saveOutcome : Except String (String × String × FS))
    (indexOk : Bool) : Except String (MemoryCreateResponse × FS) :=
  match saveOutcome with
  | Except.error e => Except.error ("Failed to save memory: " ++ e)
  | Except.ok (memory_id, file_path, fs) =>
    Except.ok
      ({ id := memory_id
         file_path := file_path
         message := "Memory saved successfully" ++
           (if indexOk then "with vector indexing" else " (file only)") }, fs)

/-- The service-level create: file-store save composed with the index
outcome. -/
def service_create (memory_dir : String) (now : DateTime) (fs : FS)
    (entry : MemoryEntry) (indexOk : Bool) : Except String (MemoryCreateResponse × FS) :=
  let r := save_memory memory_dir now fs entry
  create_memory (Except.ok (r.memory_id, r.file_path, r.fs)) indexOk

/-! ## The spec's claimed slug pipeline, for comparison with the code -/

/-- Modelled from the spec: slug derivation as the spec words it — first
line, strip a leading header marker, slugify, truncate the slug to 50
characters, with a `"memory"` fallback for empty or whitespace-only
titles. -/
def slug_spec (content : String) : String :=
  let title := titleOf (firstLine content)
  if pyStrip title = "" then "memory" else pyTake (slugify title) 50

/-! ## Concrete fixtures used by the counterexamples and witnesses -/

/-- An empty directory tree. -/
def fsEmpty : FS := fun _ => none

/-- A concrete stored timestamp. -/
def t2024 : DateTime := ⟨2024, 1, 2, 3, 4, 5, 0⟩

/-- A concrete later clock value. -/
def tClock : DateTime := ⟨2025, 6, 7, 8, 9, 10, 11⟩

/-- A valid entry whose content carries a trailing newline. -/
def eNl : MemoryEntry :=
  { project := "p1", category := "arch", tags := ["db"], references := ["src/models.py"],
    content := "hi\n", outdated := false, timestamp := some t2024 }

/-- A valid entry with no timestamp. -/
def eNoTs : MemoryEntry :=
  { project := "p2", category := "impl", tags := [], references := [],
    content := "note", outdated := false, timestamp := none }

/-- A post whose timestamp metadata does not parse. -/
def postBadTs : Post :=
  { project := "p3", category := "other", tags := [], references := [],
    timestampMeta := some "not-a-date", outdated := false, content := "body" }

/-- A tree holding one corrupt file. -/
def fsCorrupt : FS :=
  fun p => if p = "mem/p3/bad.md" then some FileData.corrupt else none

/-- A tree holding one file with unparsable timestamp metadata. -/
def fsBadTs : FS :=
  fun p => if p = "mem/p3/ts.md" then some (FileData.good postBadTs) else none

/-- Hexadecimal characters, as produced by `hexdigest`. -/
def isHexChar (c : Char) : Bool :=
  c.isDigit || ('a' ≤ c && c ≤ 'f')

/-! ## Supporting lemmas -/

theorem wordHexChars_length (w : Nat) : (wordHexChars w).length = 8 := by
  simp [wordHexChars]

theorem hexdigest_len_aux (l : List Nat) :
    ((l.map wordHexChars).map List.length).sum = 8 * l.length := by
  induction l with
  | nil => simp
  | cons a t ih =>
    simp only [List.map_cons, List.sum_cons, wordHexChars_length, List.length_cons, ih]
    ring

theorem sha256Words_length (m : List Nat) : (sha256Words m).length = 8 := rfl

theorem sha256_hexdigest_length (s : String) :
    (sha256_hexdigest s).data.length = 64 := by
  show (((sha256Words (encodeUtf8 s)).map wordHexChars).flatten).length = 64
  rw [List.length_flatten, hexdigest_len_aux, sha256Words_length]

theorem hexDigitChar_isHexChar (n : Nat) (h : n < 16) :
    isHexChar (hexDigitChar n) = true := by
  interval_cases n <;> decide

/-! ## C2 — identifier derivation -/

/-- C2: the derived memory identifier is exactly the first 12 hex
characters of the SHA-256 hexdigest of the path string; it always has
length 12 and consists of hexadecimal characters only.  It is a pure
function of the path (its only argument) by construction, so repeated
calls agree. -/
theorem c2_derive_id (p : String) :
    generate_memory_id p = pyTake (sha256_hexdigest p) 12 ∧
    (generate_memory_id p).data.length = 12 ∧
    (generate_memory_id p).data.all isHexChar = true := by
  refine ⟨rfl, ?_, ?_⟩
  · show ((sha256_hexdigest p).data.take 12).length = 12
    rw [List.length_take, sha256_hexdigest_length]
    rfl
  · rw [List.all_eq_true]
    intro c hc
    have hmem : c ∈ (sha256_hexdigest p).data := List.take_subset 12 _ hc
    have : c ∈ ((sha256Words (encodeUtf8 p)).map wordHexChars).flatten := hmem
    obtain ⟨l, hl, hcl⟩ := List.mem_flatten.mp this
    obtain ⟨w, _, rfl⟩ := List.mem_map.mp hl
    obtain ⟨i, _, rfl⟩ := List.mem_map.mp hcl
    exact hexDigitChar_isHexChar _ (Nat.mod_lt _ (by norm_num))

/-! ## C7 — search query construction -/

/-- C7 counterexample: calling the adapter's search with `top_k = 50`
issues a query requesting 50 results, not `min(50, 10) = 10`; the
adapter itself applies no cap. -/
theorem c7_counterexample :
    (build_search_query none 50).nResults = 50 ∧ (50 : Int) ≠ min 50 10 := by
  exact ⟨rfl, by decide⟩

/-- C7 amended: the `min(top_k, 10)` cap is applied in the HTTP API
layer (`api.py`) before calling the adapter, so the query issued on
behalf of an API caller requests `min(top, 10)` results; the adapter
itself passes its `top_k` argument through unchanged, and its metadata
filter always requires `outdated == false` plus, when a project is
given, project equality. -/
theorem c7_query_cap (project : Option String) (top : Int) :
    (build_search_query project (api_top_k top)).nResults = min top 10 ∧
    (build_search_query project top).nResults = top ∧
    (build_search_query project top).whereOutdated = false ∧
    (build_search_query project top).whereProject = project :=
  ⟨rfl, rfl, rfl, rfl⟩

/-! ## C9 — similarity score bounds -/

/-- C9 counterexample: for the (hypothetical) distance `-1`, the
transform `max(0, 1 - d)` yields 2, which exceeds 1 — the transform only
clamps below. -/
theorem c9_counterexample :
    distance_to_score (-1) = 2 ∧ ¬ distance_to_score (-1) ≤ 1 := by
  constructor <;> norm_num [distance_to_score]

/-- C9 amended: the score `max(0, 1 - d)` is always nonnegative, and it
is at most 1 exactly when the reported distance is nonnegative (which
the index's distance metrics guarantee); the transform clamps below at 0
but does not clamp above. -/
theorem c9_score_bounds (d : ℚ) :
    0 ≤ distance_to_score d ∧ (0 ≤ d → distance_to_score d ≤ 1) := by
  unfold distance_to_score
  refine ⟨le_max_left 0 _, fun hd => max_le (by norm_num) (by linarith)⟩

/-- Witness for C9 at the concrete distance `1/2`. -/
theorem c9_witness :
    (0 : ℚ) ≤ (1 : ℚ) / 2 ∧ 0 ≤ distance_to_score (1 / 2) ∧
      distance_to_score (1 / 2) ≤ 1 :=
  ⟨by norm_num, (c9_score_bounds (1 / 2)).1, (c9_score_bounds (1 / 2)).2 (by norm_num)⟩

/-! ## C3 — create orchestration: save failures fatal, index failures soft -/

/-- C3: a store save failure propagates out of `create_memory` as an
error; an indexing failure after a successful save still returns
success, leaves the file store exactly as the save left it (identical to
the successful-indexing run), and differs from the successful-indexing
run only in the response message. -/
theorem c3_create_policy (err memory_dir : String) (now : DateTime) (fs : FS)
    (entry : MemoryEntry) (idx : Bool) :
    (∃ d, create_memory (Except.error err) idx = Except.error d) ∧
    (∃ resp, service_create memory_dir now fs entry false =
      Except.ok (resp, (save_memory memory_dir now fs entry).fs)) ∧
    ((service_create memory_dir now fs entry false).map Prod.snd =
      (service_create memory_dir now fs entry true).map Prod.snd) ∧
    (∃ respF respT fsO,
      service_create memory_dir now fs entry false = Except.ok (respF, fsO) ∧
      service_create memory_dir now fs entry true = Except.ok (respT, fsO) ∧
      respF.id = respT.id ∧ respF.file_path = respT.file_path ∧
      respF.message ≠ respT.message) := by
  refine ⟨⟨_, rfl⟩, ⟨_, rfl⟩, rfl, _, _, _, rfl, rfl, rfl, rfl, ?_⟩
  intro h
  have := congrArg String.data h
  simp at this

/-! ## C6 — update result semantics -/

/-- C6: `update_memory` returns false exactly when the load fails, and
in that case performs no write — the directory tree is returned
unchanged. -/
theorem c6_update_result (memory_dir : String) (now : DateTime) (fs : FS)
    (p : String) (b : Bool) :
    ((update_memory memory_dir now fs p b).1 = false ↔ load_memory fs p = none) ∧
    (load_memory fs p = none → (update_memory memory_dir now fs p b).2 = fs) := by
  cases h : load_memory fs p with
  | none => simp [update_memory, h]
  | some e => simp [update_memory, h]

/-- Witness for C6 on an empty tree: the load fails, update reports
false, and the tree is unchanged. -/
theorem c6_witness :
    load_memory fsEmpty "mem/p1/a.md" = none ∧
    (update_memory "mem" tClock fsEmpty "mem/p1/a.md" true).1 = false ∧
    (update_memory "mem" tClock fsEmpty "mem/p1/a.md" true).2 = fsEmpty :=
  ⟨rfl, (c6_update_result "mem" tClock fsEmpty "mem/p1/a.md" true).1.mpr rfl,
    (c6_update_result "mem" tClock fsEmpty "mem/p1/a.md" true).2 rfl⟩

/-! ## C4 — graceful load degradation -/

/-- C4: `load_memory` returns `none` — rather than propagating an
exception — when the file is missing, when it is corrupt (open or parse
raised), and when its timestamp metadata fails to parse.  Its return
type is `Option MemoryEntry`: every failure inside the Python `try`
block is caught and becomes `none`. -/
theorem c4_load_graceful (fs : FS) (p : String) :
    (fs p = none → load_memory fs p = none) ∧
    (fs p = some FileData.corrupt → load_memory fs p = none) ∧
    (∀ post s, fs p = some (FileData.good post) → post.timestampMeta = some s →
      DateTime.fromisoformat s = none → load_memory fs p = none) := by
  refine ⟨fun h => by simp [load_memory, h], fun h => by simp [load_memory, h],
    fun post s hfs hts hparse => ?_⟩
  simp [load_memory, hfs, hts, hparse]

/-- Witness for C4: a missing file, a corrupt file, and a file with
unparsable timestamp metadata all load as `none`. -/
theorem c4_witness :
    load_memory fsEmpty "mem/p3/a.md" = none ∧
    load_memory fsCorrupt "mem/p3/bad.md" = none ∧
    load_memory fsBadTs "mem/p3/ts.md" = none :=
  ⟨(c4_load_graceful fsEmpty "mem/p3/a.md").1 rfl,
   (c4_load_graceful fsCorrupt "mem/p3/bad.md").2.1 rfl,
   (c4_load_graceful fsBadTs "mem/p3/ts.md").2.2 postBadTs "not-a-date" rfl rfl
     (by decide)⟩

/-! ## C8 — slug derivation -/

theorem firstLine_eq (content : String) :
    firstLine content = ⟨(stripChars content.data).takeWhile (· != '\n')⟩ := by
  unfold firstLine contentLines
  cases h : splitNl (stripChars content.data) with
  | nil => exact absurd h (splitNl_ne_nil _)
  | cons a t =>
    have hh := splitNl_head (stripChars content.data)
    rw [h] at hh
    simp at hh
    simp [h, hh]

/-- A list whose strip is empty is all whitespace. -/
theorem stripChars_nil_all_ws (l : List Char) (h : stripChars l = []) :
    ∀ c ∈ l, pyWhitespace c = true := by
  unfold stripChars at h
  rw [List.reverse_eq_nil_iff] at h
  rw [List.dropWhile_eq_nil_iff] at h
  intro c hc
  have hsplit := List.takeWhile_append_dropWhile (p := pyWhitespace) (l := l)
  rw [← hsplit] at hc
  rcases List.mem_append.mp hc with hmem | hmem
  · exact List.mem_takeWhile_imp hmem
  · exact h c (List.mem_reverse.mpr hmem)

/-- Lowercasing a whitespace character never yields a slug-keepable
character. -/
theorem ws_not_slugKeep (c : Char) (h : pyWhitespace c = true) :
    slugKeep c.toLower = false := by
  simp [pyWhitespace] at h
  rcases h with ((((h | h) | h) | h) | h) | h <;> subst h <;> decide

/-- Slugifying pure separator characters leaves no words. -/
theorem slugSegments_sep (l : List Char) (h : ∀ c ∈ l, slugKeep c = false) :
    (slugSegments l).filter (· ≠ []) = [] := by
  induction l with
  | nil => simp [slugSegments]
  | cons c rest ih =>
    have hc := h c (by simp)
    have hrec := ih (fun x hx => h x (List.mem_cons_of_mem c hx))
    simp [slugSegments, hc]
    simpa using hrec

/-- An all-whitespace title produces the empty slug. -/
theorem slugOf_empty_title (content : String)
    (h : pyStrip (titleOf (firstLine content)) = "") : slugOf content = "" := by
  unfold slugOf slugify
  have hws : ∀ c ∈ (titleOf (firstLine content)).data, pyWhitespace c = true :=
    stripChars_nil_all_ws _ (congrArg String.data h)
  have hsep : ∀ c ∈ ((pyTake (titleOf (firstLine content)) 50).data.map Char.toLower),
      slugKeep c = false := by
    intro c hc
    obtain ⟨c0, hc0, rfl⟩ := List.mem_map.mp hc
    exact ws_not_slugKeep c0 (hws c0 (List.take_subset 50 _ hc0))
  rw [slugSegments_sep _ hsep]
  rfl

/-- C8 counterexample: for content whose first line is a bare header
marker, the code produces an empty slug while the claimed pipeline
produces the `"memory"` fallback — the fallback branch in the code is
unreachable because a Python `split` never returns an empty list. -/
theorem c8_counterexample :
    slugOf "#\nSome details" = "" ∧ slug_spec "#\nSome details" = "memory" ∧
    slugOf "#\nSome details" ≠ slug_spec "#\nSome details" :=
  ⟨by decide, by decide, by decide⟩

/-- C8 amended: the slug is `slugify(title[:50])` — truncation to 50
characters happens on the title before slugifying, not on the slug — where
the title is the first line of the stripped content with a leading header
marker stripped; an empty or whitespace-only title yields an empty slug,
never the `"memory"` token. -/
theorem c8_slug_derivation (content : String) :
    slugOf content = slugify (pyTake (titleOf (firstLine content)) 50) ∧
    firstLine content = ⟨(stripChars content.data).takeWhile (· != '\n')⟩ ∧
    (pyStrip (titleOf (firstLine content)) = "" → slugOf content = "") :=
  ⟨rfl, firstLine_eq content, slugOf_empty_title content⟩

/-- Witness for C8 at a whitespace-only title. -/
theorem c8_witness :
    pyStrip (titleOf (firstLine "##  \nBody")) = "" ∧ slugOf "##  \nBody" = "" :=
  ⟨by decide, (c8_slug_derivation "##  \nBody").2.2 (by decide)⟩

/-! ## Save/load round-trip machinery (C1, C5, C10) -/

theorem savedEntry_eq (now : DateTime) (e : MemoryEntry) :
    savedEntry now e = { e with timestamp := some (e.timestamp.getD now) } := by
  obtain ⟨p, c, tg, rf, ct, o, ts⟩ := e
  unfold savedEntry
  cases ts <;> simp

theorem savedPost_eq (now : DateTime) (e : MemoryEntry) :
    savedPost now e =
      { project := e.project, category := e.category, tags := e.tags,
        references := e.references,
        timestampMeta := some ((e.timestamp.getD now).isoformat),
        outdated := e.outdated, content := e.content } := by
  unfold savedPost
  rw [savedEntry_eq]
  simp

theorem savedPath_eq (dir : String) (now : DateTime) (e : MemoryEntry) :
    savedPath dir now e = dir ++ "/" ++ e.project ++ "/" ++
      ((e.timestamp.getD now).strftimeName ++ "-" ++ e.category ++ "-" ++
        slugOf e.content ++ ".md") := by
  unfold savedPath generate_filename
  rw [savedEntry_eq]
  simp

/-- Loading a path that holds a well-formed post with a serialized valid
timestamp and validator-passing fields returns exactly the loaded
entry. -/
theorem load_post (fs : FS) (p : String) (post : Post) (ts : DateTime)
    (hfs : fs p = some (FileData.good post))
    (hts : post.timestampMeta = some ts.isoformat) (htv : ts.Valid)
    (hval : entry_valid (loadedOf post (some ts)) = true) :
    load_memory fs p = some (loadedOf post (some ts)) := by
  unfold load_memory
  rw [hfs]
  simp only []
  rw [hts]
  simp only []
  rw [fromisoformat_isoformat ts htv]
  simp only []
  rw [if_pos hval]

/-- The round-trip at the heart of C1: saving a valid entry and loading
the returned path yields the entry with its timestamp populated and its
content stripped. -/
theorem save_load (dir : String) (now : DateTime) (fs : FS) (e : MemoryEntry)
    (hv : entry_valid e = true) (htv : (e.timestamp.getD now).Valid) :
    load_memory (save_memory dir now fs e).fs (save_memory dir now fs e).file_path =
      some { e with timestamp := some (e.timestamp.getD now),
                    content := pyStrip e.content } := by
  have hfs : (save_memory dir now fs e).fs (save_memory dir now fs e).file_path =
      some (FileData.good (savedPost now e)) := by
    simp [save_memory]
  have hts : (savedPost now e).timestampMeta =
      some ((e.timestamp.getD now).isoformat) := by
    rw [savedPost_eq]
  have hloaded : loadedOf (savedPost now e) (some (e.timestamp.getD now)) =
      { e with timestamp := some (e.timestamp.getD now), content := pyStrip e.content } := by
    rw [savedPost_eq]
    rfl
  have hval : entry_valid (loadedOf (savedPost now e) (some (e.timestamp.getD now))) = true := by
    rw [hloaded]
    unfold entry_valid at hv ⊢
    simpa [pyStrip, stripChars_data_mk, stripChars_idem] using hv
  rw [load_post _ _ _ _ hfs hts htv hval, hloaded]

/-! ## C1 — save/load round-trip -/

/-- C1 counterexample: a valid entry whose content carries a trailing
newline does not round-trip field-for-field — the loaded content is the
stripped body, because `frontmatter.parse` returns `content.strip()`. -/
theorem c1_counterexample :
    entry_valid eNl = true ∧
    (load_memory (save_memory "mem" tClock fsEmpty eNl).fs
        (save_memory "mem" tClock fsEmpty eNl).file_path).map MemoryEntry.content =
      some "hi" ∧
    eNl.content = "hi\n" ∧ ("hi" : String) ≠ "hi\n" :=
  ⟨by decide, by decide, rfl, by decide⟩

/-- C1 amended: for every valid entry (project, category, content
non-empty after trimming; timestamp a real datetime when present),
saving and then loading the returned path yields an entry equal to the
input in project, category, tags, references and outdated, with the
timestamp populated from the save-time clock when it was absent and
preserved otherwise, and with the content equal to the input content
stripped of surrounding whitespace (hence equal to the input exactly
when the input content was already stripped). -/
theorem c1_roundtrip (dir : String) (now : DateTime) (fs : FS) (e : MemoryEntry)
    (hv : entry_valid e = true) (htv : (e.timestamp.getD now).Valid) :
    load_memory (save_memory dir now fs e).fs (save_memory dir now fs e).file_path =
      some { e with timestamp := some (e.timestamp.getD now),
                    content := pyStrip e.content } :=
  save_load dir now fs e hv htv

/-- Witness for C1 at a concrete already-stripped entry. -/
theorem c1_witness :
    entry_valid eNoTs = true ∧ (eNoTs.timestamp.getD tClock).Valid ∧
    load_memory (save_memory "mem" tClock fsEmpty eNoTs).fs
        (save_memory "mem" tClock fsEmpty eNoTs).file_path =
      some { eNoTs with timestamp := some (eNoTs.timestamp.getD tClock),
                        content := pyStrip eNoTs.content } :=
  ⟨by decide, by decide, c1_roundtrip "mem" tClock fsEmpty eNoTs (by decide) (by decide)⟩

/-! ## C10 — save mutates the caller's entry -/

/-- C10: when the passed entry has no timestamp, `save_memory` assigns
the current clock to the caller's entry object before writing, and the
timestamp serialized into the file is that same clock value. -/
theorem c10_save_mutates (dir : String) (now : DateTime) (fs : FS) (e : MemoryEntry)
    (h : e.timestamp = none) :
    (save_memory dir now fs e).entry.timestamp = some now ∧
    (save_memory dir now fs e).fs (save_memory dir now fs e).file_path =
      some (FileData.good (savedPost now e)) ∧
    (savedPost now e).timestampMeta = some now.isoformat := by
  refine ⟨?_, by simp [save_memory], ?_⟩
  · show (savedEntry now e).timestamp = some now
    rw [savedEntry_eq]
    simp [h]
  · rw [savedPost_eq]
    simp [h]

/-- Witness for C10 at a concrete timestampless entry. -/
theorem c10_witness :
    eNoTs.timestamp = none ∧
    (save_memory "mem" tClock fsEmpty eNoTs).entry.timestamp = some tClock ∧
    (save_memory "mem" tClock fsEmpty eNoTs).fs
        (save_memory "mem" tClock fsEmpty eNoTs).file_path =
      some (FileData.good (savedPost tClock eNoTs)) ∧
    (savedPost tClock eNoTs).timestampMeta = some tClock.isoformat :=
  ⟨rfl, (c10_save_mutates "mem" tClock fsEmpty eNoTs rfl).1,
    (c10_save_mutates "mem" tClock fsEmpty eNoTs rfl).2.1,
    (c10_save_mutates "mem" tClock fsEmpty eNoTs rfl).2.2⟩

/-! ## C5 — update rewrites the file changing only the outdated flag -/

theorem firstLine_pyStrip (c : String) : firstLine (pyStrip c) = firstLine c := by
  have hs : stripChars (pyStrip c).data = stripChars c.data := by
    show stripChars (stripChars c.data) = stripChars c.data
    exact stripChars_idem c.data
  rw [firstLine_eq, firstLine_eq, hs]

theorem slugOf_pyStrip (c : String) : slugOf (pyStrip c) = slugOf c := by
  unfold slugOf
  rw [firstLine_pyStrip]

/-- C5: on a file just written by `save_memory`, `update_memory`
reports success, rewrites that same file so that the loaded entry
changes only in its `outdated` flag — project, category, tags,
references and (stripped) content unchanged, the embedded timestamp
preserved from the original entry rather than regenerated from the
update-time clock `now` — and leaves every other path untouched. -/
theorem c5_update_only_outdated (dir : String) (t0 now : DateTime) (fs : FS)
    (e : MemoryEntry) (b : Bool)
    (hv : entry_valid e = true) (htv : (e.timestamp.getD t0).Valid) :
    (update_memory dir now (save_memory dir t0 fs e).fs
        (save_memory dir t0 fs e).file_path b).1 = true ∧
    load_memory (update_memory dir now (save_memory dir t0 fs e).fs
        (save_memory dir t0 fs e).file_path b).2
        (save_memory dir t0 fs e).file_path =
      some { e with timestamp := some (e.timestamp.getD t0),
                    content := pyStrip e.content, outdated := b } ∧
    (∀ q, q ≠ (save_memory dir t0 fs e).file_path →
      (update_memory dir now (save_memory dir t0 fs e).fs
          (save_memory dir t0 fs e).file_path b).2 q =
        (save_memory dir t0 fs e).fs q) := by
  have hload := save_load dir t0 fs e hv htv
  have hupd : update_memory dir now (save_memory dir t0 fs e).fs
      (save_memory dir t0 fs e).file_path b =
      (true, (save_memory dir now (save_memory dir t0 fs e).fs
        { e with timestamp := some (e.timestamp.getD t0),
                 content := pyStrip e.content, outdated := b }).fs) := by
    unfold update_memory
    rw [hload]
  have hpath2 :
      savedPath dir now
          { e with timestamp := some (e.timestamp.getD t0),
                   content := pyStrip e.content, outdated := b } =
        savedPath dir t0 e := by
    rw [savedPath_eq, savedPath_eq]
    simp [slugOf_pyStrip]
  have hpe :
      (save_memory dir now (save_memory dir t0 fs e).fs
          { e with timestamp := some (e.timestamp.getD t0),
                   content := pyStrip e.content, outdated := b }).file_path =
        (save_memory dir t0 fs e).file_path := hpath2
  refine ⟨by rw [hupd], ?_, ?_⟩
  · rw [hupd]
    have hv2 :
        entry_valid
            { e with timestamp := some (e.timestamp.getD t0),
                     content := pyStrip e.content, outdated := b } = true := by
      unfold entry_valid at hv ⊢
      simpa [pyStrip, stripChars_data_mk, stripChars_idem] using hv
    have htv2 :
        (({ e with timestamp := some (e.timestamp.getD t0),
                   content := pyStrip e.content, outdated := b } :
            MemoryEntry).timestamp.getD now).Valid := by
      simpa using htv
    have h2 := save_load dir now (save_memory dir t0 fs e).fs
      { e with timestamp := some (e.timestamp.getD t0),
               content := pyStrip e.content, outdated := b } hv2 htv2
    rw [← hpe, h2]
    simp [pyStrip_idem]
  · intro q hq
    rw [hupd]
    show (if q = savedPath dir now
            { e with timestamp := some (e.timestamp.getD t0),
                     content := pyStrip e.content, outdated := b }
          then some (FileData.good _) else (save_memory dir t0 fs e).fs q) =
        (save_memory dir t0 fs e).fs q
    rw [if_neg]
    intro hcon
    exact hq (hcon.trans hpath2)

/-- Witness for C5 at a concrete saved entry, updated with a later
clock. -/
theorem c5_witness :
    entry_valid eNl = true ∧ (eNl.timestamp.getD t2024).Valid ∧
    (update_memory "mem" tClock (save_memory "mem" t2024 fsEmpty eNl).fs
        (save_memory "mem" t2024 fsEmpty eNl).file_path true).1 = true ∧
    load_memory (update_memory "mem" tClock (save_memory "mem" t2024 fsEmpty eNl).fs
        (save_memory "mem" t2024 fsEmpty eNl).file_path true).2
        (save_memory "mem" t2024 fsEmpty eNl).file_path =
      some { eNl with timestamp := some (eNl.timestamp.getD t2024),
                      content := pyStrip eNl.content, outdated := true } :=
  ⟨by decide, by decide,
    (c5_update_only_outdated "mem" t2024 tClock fsEmpty eNl true (by decide) (by decide)).1,
    (c5_update_only_outdated "mem" t2024 tClock fsEmpty eNl true (by decide) (by decide)).2.1⟩

end Retainr
